import Mathlib

/-!
Verification development for the aurora alert decision engine
(`aurora_alert.py`).  Python functions are shallow-embedded as Lean
definitions: machine floats become `ℚ`, Python `int` becomes `ℤ`,
`None`-returning functions become `Option`, and code that can raise is
written in `Except Unit`.
-/

namespace AuroraAlert

/-- The persisted alert ledger (`state` dict in the source):
`last_sent` models the `"last_sent"` sub-dict (a key that is absent maps
to `none`), `forecast_last_peak` models
`state.get("forecast", {}).get("last_peak_time")`. -/
structure AlertState where
  last_sent : String → Option Int
  forecast_last_peak : Option String

/-- A ledger with no entries (fresh `{}` state). -/
def emptyLedger : AlertState := ⟨fun _ => none, none⟩

/-- Embeds `can_send_now` (src lines 404-406):
`last_ts = int(state.get("last_sent", {}).get(key, 0))`;
`return (now_ts - last_ts) >= cooldown_seconds`. -/
def can_send_now (state : AlertState) (key : String)
    (cooldown_seconds now_ts : Int) : Bool :=
  let last_ts : Int := (state.last_sent key).getD 0
  decide (now_ts - last_ts ≥ cooldown_seconds)

/-- Embeds `mark_sent` (src lines 409-411):
`state.setdefault("last_sent", {}); state["last_sent"][key] = now_ts`. -/
def mark_sent (state : AlertState) (key : String) (now_ts : Int) : AlertState :=
  { state with last_sent := fun k => if k = key then some now_ts else state.last_sent k }

/-- Embeds `should_send_forecast` (src lines 414-418); the two branches of
the source conditional are syntactically identical. -/
def should_send_forecast (state : AlertState) (peak_time : String)
    (now_ts cooldown_seconds : Int) : Bool :=
  if state.forecast_last_peak ≠ some peak_time then
    can_send_now state "FORECAST" cooldown_seconds now_ts
  else
    can_send_now state "FORECAST" cooldown_seconds now_ts

/-- Embeds `mark_forecast_peak` (src lines 421-423). -/
def mark_forecast_peak (state : AlertState) (peak_time : String) : AlertState :=
  { state with forecast_last_peak := some peak_time }

/-- Embeds `kp_label` (src lines 100-109); Python floats become `ℚ`. -/
def kp_label (kp : ℚ) : String × String :=
  if kp ≥ 8 then ("EKSTREMALNA", "🔥")
  else if kp ≥ 7 then ("BARDZO DUŻA", "🚀")
  else if kp ≥ 6 then ("DUŻA", "✨")
  else if kp ≥ 5 then ("ŚREDNIA", "🌙")
  else ("NISKA", "🫥")

/-- Embeds `pick_priority_emoji` (src lines 427-452).  The Python guard
`isinstance(nowcast_kp, (int, float))` is the `some`-test on the
`Option`. -/
def pick_priority_emoji (send_now_flag send_forecast_flag now_gate_ok best_ok : Bool)
    (nowcast_kp : Option ℚ) : String :=
  if (match nowcast_kp with
      | some v => decide (v ≥ 7)
      | none => false) && now_gate_ok then "🟢"
  else if send_now_flag && now_gate_ok then "🟢"
  else if !send_now_flag && send_forecast_flag && best_ok then "🟡"
  else "🔴"

/-- C1 (amended): `can_send_now` is true iff `now_ts - last_sent ≥ cooldown`
(with 0 for an absent key), and — for a *positive* cooldown — it is false
immediately after `mark_sent` with the same `now_ts`. -/
theorem claim_C1 (state : AlertState) (key : String) (cooldown_seconds now_ts : Int) :
    (can_send_now state key cooldown_seconds now_ts = true ↔
      now_ts - (state.last_sent key).getD 0 ≥ cooldown_seconds)
    ∧ (0 < cooldown_seconds →
      can_send_now (mark_sent state key now_ts) key cooldown_seconds now_ts = false) := by
  constructor
  · simp [can_send_now]
  · intro hpos
    have hupd : (mark_sent state key now_ts).last_sent key = some now_ts := by
      simp [mark_sent]
    simp only [can_send_now, hupd, Option.getD_some, decide_eq_false_iff_not, not_le]
    omega

/-- C1 witness: with cooldown 7200 s, immediately after `mark_sent` at the
same timestamp `can_send_now` is false. -/
theorem claim_C1_witness :
    (0 : Int) < 7200 ∧
      can_send_now (mark_sent emptyLedger "NOW" 1000) "NOW" 7200 1000 = false :=
  ⟨by decide, (claim_C1 emptyLedger "NOW" 7200 1000).2 (by decide)⟩

/-- C1 counterexample: with cooldown 0, immediately after `mark_sent` with
the same `now_ts` the function returns `true`, not `false` as the claim
states for every cooldown. -/
theorem claim_C1_cex :
    can_send_now (mark_sent emptyLedger "NOW" 100) "NOW" 0 100 = true := by
  decide

/-- C2: `should_send_forecast` coincides with `can_send_now` on the
`"FORECAST"` class; in particular the stored peak identity and the given
peak identity have no observable effect on the result. -/
theorem claim_C2 (state : AlertState) (peak_time : String)
    (now_ts cooldown_seconds : Int) :
    should_send_forecast state peak_time now_ts cooldown_seconds =
      can_send_now state "FORECAST" cooldown_seconds now_ts
    ∧ (∀ peak2 : String, ∀ stored2 : Option String,
        should_send_forecast state peak_time now_ts cooldown_seconds =
          should_send_forecast { state with forecast_last_peak := stored2 }
            peak2 now_ts cooldown_seconds) := by
  constructor
  · unfold should_send_forecast
    simp only [ite_self]
  · intro peak2 stored2
    unfold should_send_forecast
    simp only [ite_self]
    rfl

/-- C3: `pick_priority_emoji` realises the claimed strict rule order:
green iff (nowcast present, ≥ 7, gate OK) or (now fires and gate OK);
otherwise yellow iff (now does not fire, forecast fires, window OK);
red otherwise. -/
theorem claim_C3 (nf ff go bo : Bool) (nc : Option ℚ) :
    (pick_priority_emoji nf ff go bo nc = "🟢" ↔
      ((∃ v, nc = some v ∧ 7 ≤ v) ∧ go = true) ∨ (nf = true ∧ go = true))
    ∧ (pick_priority_emoji nf ff go bo nc = "🟡" ↔
      ¬(((∃ v, nc = some v ∧ 7 ≤ v) ∧ go = true) ∨ (nf = true ∧ go = true))
        ∧ (nf = false ∧ ff = true ∧ bo = true))
    ∧ (pick_priority_emoji nf ff go bo nc = "🔴" ↔
      ¬(((∃ v, nc = some v ∧ 7 ≤ v) ∧ go = true) ∨ (nf = true ∧ go = true))
        ∧ ¬(nf = false ∧ ff = true ∧ bo = true)) := by
  rcases nc with _ | v
  · cases nf <;> cases ff <;> cases go <;> cases bo <;>
      simp [pick_priority_emoji]
  · by_cases h7 : (7 : ℚ) ≤ v <;>
      cases nf <;> cases ff <;> cases go <;> cases bo <;>
        simp [pick_priority_emoji, h7, not_le.mpr]

/-- C5: `kp_label` is total with inclusive lower-bound tiers scanned from
the highest threshold, negative values fall through to the low tier, and
the boundary examples `kp_label 8` and `kp_label 5.99` hold. -/
theorem claim_C5 (kp : ℚ) :
    (kp_label kp = ("EKSTREMALNA", "🔥") ↔ 8 ≤ kp)
    ∧ (kp_label kp = ("BARDZO DUŻA", "🚀") ↔ 7 ≤ kp ∧ kp < 8)
    ∧ (kp_label kp = ("DUŻA", "✨") ↔ 6 ≤ kp ∧ kp < 7)
    ∧ (kp_label kp = ("ŚREDNIA", "🌙") ↔ 5 ≤ kp ∧ kp < 6)
    ∧ (kp_label kp = ("NISKA", "🫥") ↔ kp < 5)
    ∧ kp_label 8 = ("EKSTREMALNA", "🔥")
    ∧ kp_label (599/100) = ("ŚREDNIA", "🌙") := by
  refine ⟨?_, ?_, ?_, ?_, ?_, by norm_num [kp_label], by norm_num [kp_label]⟩ <;>
  · constructor
    · intro h
      unfold kp_label at h
      split_ifs at h with h1 h2 h3 h4 <;>
        simp_all [not_le]
    · intro h
      unfold kp_label
      split_ifs with h1 h2 h3 h4 <;>
        first
          | rfl
          | (exfalso; rcases h with ⟨ha, hb⟩; linarith)
          | (exfalso; linarith)

/-! ### JSON values and the nowcast feed normalizer -/

/-- A parsed JSON value as produced by `json.loads` (Python `None`,
`bool`, `int`/`float` (as `ℚ`), `str`, `list`, `dict`). -/
inductive JVal where
  | null : JVal
  | bool (b : Bool) : JVal
  | num (q : ℚ) : JVal
  | str (s : String) : JVal
  | arr (elems : List JVal) : JVal
  | obj (fields : List (String × JVal)) : JVal

/-- Python truthiness (`bool(v)`) of a JSON value. -/
def pyFalsy : JVal → Bool
  | .null => true
  | .bool b => !b
  | .num q => decide (q = 0)
  | .str s => s.isEmpty
  | .arr l => l.isEmpty
  | .obj l => l.isEmpty

/-- Python `len(v)`: defined for strings, lists and dicts, raises
`TypeError` otherwise. -/
def pyLen : JVal → Except Unit Nat
  | .str s => .ok s.length
  | .arr l => .ok l.length
  | .obj l => .ok l.length
  | _ => .error ()

/-- Python `v[i]` for a nonnegative index (the source only uses 0 and 1):
list indexing, string indexing (yielding a one-character string); a dict
raises `KeyError` for an integer key (JSON keys are strings), other
values raise `TypeError`. -/
def pyIndex : JVal → Nat → Except Unit JVal
  | .arr l, i =>
    match l[i]? with
    | some x => .ok x
    | none => .error ()
  | .str s, i =>
    match s.toList[i]? with
    | some c => .ok (.str (String.mk [c]))
    | none => .error ()
  | _, _ => .error ()

mutual
/-- Python `repr` of a JSON value (string escaping inside nested values is
not modelled; the feeds' time tags are plain strings, and non-integer
numbers are rendered as fractions). -/
def pyRepr : JVal → String
  | .null => "None"
  | .bool b => if b then "True" else "False"
  | .num q => if q.den = 1 then toString q.num else toString q
  | .str s => "'" ++ s ++ "'"
  | .arr l => "[" ++ String.intercalate ", " (pyReprList l) ++ "]"
  | .obj l => "\x7b" ++ String.intercalate ", " (pyReprObjList l) ++ "\x7d"

/-- `repr` of the elements of a JSON list. -/
def pyReprList : List JVal → List String
  | [] => []
  | x :: xs => pyRepr x :: pyReprList xs

/-- `repr` of the entries of a JSON object. -/
def pyReprObjList : List (String × JVal) → List String
  | [] => []
  | (k, v) :: xs => ("'" ++ k ++ "': " ++ pyRepr v) :: pyReprObjList xs
end

/-- Python `str(v)`: the string itself for strings, `repr`-style
rendering otherwise. -/
def pyStr : JVal → String
  | .str s => s
  | v => pyRepr v

/-- Whitespace stripped by Python `str.strip()` (ASCII part; exotic
Unicode spaces are not modelled). -/
def pySpace (c : Char) : Bool :=
  c == ' ' || c == '\t' || c == '\n' || c == '\r' || c == '\x0b' || c == '\x0c'

/-- Python `s.strip()` over a character list. -/
def pyStrip (cs : List Char) : List Char :=
  ((cs.dropWhile pySpace).reverse.dropWhile pySpace).reverse

/-- Python `s.replace(",", ".")` (single-character replacement). -/
def commaToDot (cs : List Char) : List Char :=
  cs.map (fun c => if c = ',' then '.' else c)

/-- Attempts the regex `[-+]?(?:\d+\.?\d*|\d*\.?\d+)` at the start of the
list, returning the (greedy, first-alternative-preferred) matched
characters.  When a sign is present but no digits follow, backtracking to
a signless match also fails, so the whole attempt fails. -/
def matchNumAt (cs : List Char) : Option (List Char) :=
  let (sign, cs1) :=
    match cs with
    | c :: rest => if c = '+' ∨ c = '-' then ([c], rest) else (([] : List Char), cs)
    | [] => (([] : List Char), ([] : List Char))
  match cs1 with
  | [] => none
  | c :: rest =>
    if c.isDigit then
      -- first alternative: \d+\.?\d*
      let ds1 := cs1.takeWhile Char.isDigit
      match cs1.dropWhile Char.isDigit with
      | '.' :: rest2 => some (sign ++ ds1 ++ '.' :: rest2.takeWhile Char.isDigit)
      | _ => some (sign ++ ds1)
    else if c = '.' then
      -- second alternative with empty integer part: \.\d+
      let ds := rest.takeWhile Char.isDigit
      if ds.isEmpty then none else some (sign ++ '.' :: ds)
    else none

/-- `re.search`: try the pattern at each position, left to right. -/
def searchNum : List Char → Option (List Char)
  | [] => none
  | c :: rest =>
    match matchNumAt (c :: rest) with
    | some m => some m
    | none => searchNum rest

/-- Decimal digits to a natural number. -/
def digitsToNat (ds : List Char) : Nat :=
  ds.foldl (fun acc c => 10 * acc + (c.toNat - '0'.toNat)) 0

/-- Decomposes a matched number string into its sign, integer digits and
fraction digits. -/
def numParts (m : List Char) : Bool × List Char × List Char :=
  let (neg, m1) :=
    match m with
    | '-' :: rest => (true, rest)
    | '+' :: rest => (false, rest)
    | _ => (false, m)
  let intPart := m1.takeWhile Char.isDigit
  let fracPart :=
    match m1.dropWhile Char.isDigit with
    | '.' :: r => r.takeWhile Char.isDigit
    | _ => ([] : List Char)
  (neg, intPart, fracPart)

/-- Python `float` applied to a string matched by the number pattern
(sign, integer digits, optional dot and fraction digits). -/
def matchedToRat (m : List Char) : ℚ :=
  let (neg, intPart, fracPart) := numParts m
  let mag : ℚ := (digitsToNat intPart : ℚ) + (digitsToNat fracPart : ℚ) / (10 : ℚ) ^ fracPart.length
  if neg then -mag else mag

/-- Embeds `to_kp_float` (src lines 184-202).  Python `bool` is an
`int` instance, so it passes the numeric branch as 1 or 0; strings are
stripped, commas become dots, and the first regex match is converted
(`float` cannot fail on a match, which always contains a digit). -/
def to_kp_float (v : JVal) : Option ℚ :=
  match v with
  | .null => none
  | .num q => some q
  | .bool b => some (if b then 1 else 0)
  | .str s =>
    let cs := commaToDot (pyStrip s.toList)
    match searchNum cs with
    | none => none
    | some m => some (matchedToRat m)
  | _ => none

/-- Models Python dict lookup `d.get(k)` / `k in d` on a JSON object
(JSON object keys are unique). -/
def lookupField (d : List (String × JVal)) (k : String) : Option JVal :=
  match d with
  | [] => none
  | (k2, v) :: rest => if k2 = k then some v else lookupField rest k

/-- Is the value JSON `null` (Python `None`)? -/
def isNull : JVal → Bool
  | .null => true
  | _ => false

/-- First key of the priority list that is present with a non-`None`
value (`if k in last and last.get(k) is not None`). -/
def firstKeyVal (d : List (String × JVal)) : List String → Option JVal
  | [] => none
  | k :: ks =>
    match lookupField d k with
    | some v => if isNull v then firstKeyVal d ks else some v
    | none => firstKeyVal d ks

/-- Key synonyms tried for the activity value. -/
def kpKeys : List String :=
  ["kp", "estimated_kp", "k_index", "kp_index", "kp_value", "value"]

/-- Key synonyms tried for the timestamp. -/
def timeKeys : List String :=
  ["time_tag", "time", "datetime", "timestamp", "date"]

/-- Embeds `pick_from_list_of_dicts` (src lines 204-229). -/
def pick_from_list_of_dicts (items : List JVal) : Option ℚ × Option String :=
  match items.getLast? with
  | none => (none, none)
  | some last =>
    match last with
    | .obj d =>
      match firstKeyVal d kpKeys, firstKeyVal d timeKeys with
      | some kv, some tv =>
        match to_kp_float kv with
        | none => (none, none)
        | some kf => (some kf, some (pyStr tv))
      | _, _ => (none, none)
    | _ => (none, none)

/-- Container keys tried for the dict-wrapper format. -/
def containerKeys : List String :=
  ["data", "values", "k_index", "planetary_k_index", "results"]

/-- First container key holding a list
(`if container_key in data and isinstance(data[container_key], list)`). -/
def findContainer (d : List (String × JVal)) : List String → Option (List JVal)
  | [] => none
  | k :: ks =>
    match lookupField d k with
    | some (.arr l) => some l
    | _ => findContainer d ks

/-- Embeds the dict branch of `kp_nowcast` (src lines 252-279): container
keys first, then the dict treated as a single record. -/
def formatC (d : List (String × JVal)) : Option ℚ × Option String :=
  match findContainer d containerKeys with
  | some l => pick_from_list_of_dicts l
  | none =>
    match firstKeyVal d kpKeys, firstKeyVal d timeKeys with
    | some kv, some tv =>
      match to_kp_float kv with
      | none => (none, none)
      | some kf => (some kf, some (pyStr tv))
    | _, _ => (none, none)

/-- Embeds the header-row branch of `kp_nowcast` (src lines 232-242):
`rows = data[1:]`, the last row authoritative; `len` and indexing can
raise on a malformed row, which the enclosing `except` turns into
`(None, None)`. -/
def formatA (l : List JVal) : Except Unit (Option ℚ × Option String) :=
  match (l.drop 1).getLast? with
  | none => .ok (none, none)
  | some last =>
    if pyFalsy last then .ok (none, none)
    else
      match pyLen last with
      | .error e => .error e
      | .ok n =>
        if n < 2 then .ok (none, none)
        else
          match pyIndex last 1 with
          | .error e => .error e
          | .ok v1 =>
            match to_kp_float v1 with
            | none => .ok (none, none)
            | some kf =>
              match pyIndex last 0 with
              | .error e => .error e
              | .ok v0 => .ok (some kf, some (pyStr v0))

/-- The `try` body of `kp_nowcast` (src lines 181-283) after the fetch:
shape dispatch over the parsed JSON value. -/
def kp_nowcastBody (data : JVal) : Except Unit (Option ℚ × Option String) :=
  match data with
  | .arr [] => .ok (pick_from_list_of_dicts [])
  | .arr (first :: rest) =>
    match first with
    | .arr _ => formatA (first :: rest)
    | .obj _ => .ok (pick_from_list_of_dicts (first :: rest))
    | _ => .ok (none, none)
  | .obj d => .ok (formatC d)
  | _ => .ok (none, none)

/-- Embeds `kp_nowcast` (src lines 171-288) given the fetched JSON value:
the surrounding `try`/`except` maps any raised exception to
`(None, None)`. -/
def kp_nowcast (data : JVal) : Option ℚ × Option String :=
  match kp_nowcastBody data with
  | .ok r => r
  | .error _ => (none, none)

/-- A top-level shape none of the three format branches recognises:
not a list, not a dict, or a nonempty list whose head is neither a list
nor a dict. -/
def unrecognizedShape : JVal → Bool
  | .arr [] => false
  | .arr (first :: _) =>
    match first with
    | .arr _ => false
    | .obj _ => false
    | _ => true
  | .obj _ => false
  | _ => true

/-- C6: `to_kp_float` passes numeric literals through, and on strings
normalizes commas to dots and extracts the leading signed decimal
number, discarding trailing qualifiers: `"6P"` gives 6, `"7,3+"` gives
7.3, and a string with no number gives `none`. -/
theorem claim_C6 :
    (∀ q : ℚ, to_kp_float (.num q) = some q)
    ∧ to_kp_float (.str "6P") = some 6
    ∧ to_kp_float (.str "7,3+") = some (73/10)
    ∧ to_kp_float (.str "not a number") = none := by
  refine ⟨fun q => rfl, ?_, ?_, ?_⟩
  · have hs : searchNum (commaToDot (pyStrip (String.toList "6P"))) = some ['6'] := by
      decide
    have hp : numParts ['6'] = (false, ['6'], ([] : List Char)) := by decide
    have hd : digitsToNat ['6'] = 6 := by decide
    have hd0 : digitsToNat ([] : List Char) = 0 := by decide
    simp only [to_kp_float, hs, matchedToRat, hp, hd, hd0]
    norm_num
  · have hs : searchNum (commaToDot (pyStrip (String.toList "7,3+"))) = some ['7', '.', '3'] := by
      decide
    have hp : numParts ['7', '.', '3'] = (false, ['7'], ['3']) := by decide
    have hd1 : digitsToNat ['7'] = 7 := by decide
    have hd2 : digitsToNat ['3'] = 3 := by decide
    simp only [to_kp_float, hs, matchedToRat, hp, hd1, hd2]
    norm_num
  · have hs : searchNum (commaToDot (pyStrip (String.toList "not a number"))) = none := by
      decide
    simp only [to_kp_float, hs]

/-- C7: the nowcast normalizer never raises: any exception inside the
parsing body yields `(none, none)`, and so does any unrecognized
top-level shape. -/
theorem claim_C7 (data : JVal) :
    (∀ e : Unit, kp_nowcastBody data = .error e → kp_nowcast data = (none, none))
    ∧ (unrecognizedShape data = true → kp_nowcast data = (none, none)) := by
  constructor
  · intro e h
    unfold kp_nowcast
    rw [h]
  · intro h
    cases data with
    | arr l =>
      cases l with
      | nil => simp [unrecognizedShape] at h
      | cons first rest =>
        cases first <;> simp_all [unrecognizedShape, kp_nowcast, kp_nowcastBody]
    | obj d => simp [unrecognizedShape] at h
    | null => rfl
    | bool b => rfl
    | num q => rfl
    | str s => rfl

/-- C7 witness: a header-row feed whose last row is a dict raises inside
the body (a `TypeError` from `len`/indexing) and the wrapper returns
`(none, none)`; a bare number is an unrecognized shape and also returns
`(none, none)`. -/
theorem claim_C7_witness :
    kp_nowcast (JVal.arr [JVal.arr [],
      JVal.obj [("a", JVal.null), ("b", JVal.null)]]) = (none, none)
    ∧ kp_nowcast (JVal.num 3) = (none, none) :=
  ⟨(claim_C7 _).1 () rfl, (claim_C7 _).2 rfl⟩

/-- C8 (amended): for a tabular-with-header feed the last data row alone
is authoritative — value from index 1, timestamp from index 0 — and a
last row shorter than 2 elements yields no reading (earlier rows are not
consulted). -/
theorem claim_C8 (hl rows lastRow : List JVal)
    (hlast : rows.getLast? = some (JVal.arr lastRow)) :
    (2 ≤ lastRow.length →
      kp_nowcast (JVal.arr (JVal.arr hl :: rows)) =
        match to_kp_float (lastRow.getD 1 JVal.null) with
        | none => (none, none)
        | some kf => (some kf, some (pyStr (lastRow.getD 0 JVal.null))))
    ∧ (lastRow.length < 2 →
      kp_nowcast (JVal.arr (JVal.arr hl :: rows)) = (none, none)) := by
  have hbody : kp_nowcastBody (JVal.arr (JVal.arr hl :: rows)) = formatA (JVal.arr hl :: rows) := rfl
  have hdrop : (JVal.arr hl :: rows).drop 1 = rows := rfl
  constructor
  · intro hlen
    have hne : lastRow.isEmpty = false := by
      cases lastRow with
      | nil => simp at hlen
      | cons a l => rfl
    have h1 : lastRow[1]? = some (lastRow.getD 1 JVal.null) := by
      rw [List.getD_eq_getElem?_getD]
      cases h : lastRow[1]? with
      | some x => rfl
      | none =>
        rw [List.getElem?_eq_none_iff] at h
        omega
    have h0 : lastRow[0]? = some (lastRow.getD 0 JVal.null) := by
      rw [List.getD_eq_getElem?_getD]
      cases h : lastRow[0]? with
      | some x => rfl
      | none =>
        rw [List.getElem?_eq_none_iff] at h
        omega
    unfold kp_nowcast
    rw [hbody]
    unfold formatA
    rw [hdrop, hlast]
    simp only [pyFalsy, hne, Bool.false_eq_true, if_false, pyLen, pyIndex, h1, h0]
    rw [if_neg (by omega)]
    cases hkf : to_kp_float (lastRow.getD 1 JVal.null) <;> simp [hkf]
  · intro hlen
    unfold kp_nowcast
    rw [hbody]
    unfold formatA
    rw [hdrop, hlast]
    cases lastRow with
    | nil => rfl
    | cons a l =>
      cases l with
      | nil => rfl
      | cons b l2 =>
        exfalso
        simp only [List.length_cons] at hlen
        omega

/-- C8 witness: a well-formed tabular feed with two data rows reads the
value and time tag from the last row. -/
theorem claim_C8_witness :
    kp_nowcast (JVal.arr [JVal.arr [JVal.str "time_tag", JVal.str "kp"],
      JVal.arr [JVal.str "t1", JVal.num 4],
      JVal.arr [JVal.str "t2", JVal.num 5]]) = (some 5, some "t2") := by
  have h := (claim_C8 [JVal.str "time_tag", JVal.str "kp"]
      [JVal.arr [JVal.str "t1", JVal.num 4], JVal.arr [JVal.str "t2", JVal.num 5]]
      [JVal.str "t2", JVal.num 5] rfl).1 (by decide)
  rw [h]
  rfl

/-- C8 counterexample: with a short final row after a complete data row,
the normalizer returns no reading; it does not skip the short row and
fall back to the earlier complete row as the claim states. -/
theorem claim_C8_cex :
    kp_nowcast (JVal.arr [JVal.arr [JVal.str "time_tag", JVal.str "kp"],
      JVal.arr [JVal.str "t1", JVal.num 5],
      JVal.arr [JVal.str "t2"]]) = (none, none)
    ∧ kp_nowcast (JVal.arr [JVal.arr [JVal.str "time_tag", JVal.str "kp"],
      JVal.arr [JVal.str "t1", JVal.num 5],
      JVal.arr [JVal.str "t2"]]) ≠ (some 5, some "t1") := by
  constructor
  · rfl
  · decide

/-! ### Send / mark / persist ordering in `main` -/

/-- Embeds the tail of `main` (src lines 837-853) with the external send
operation abstracted as its outcome.  `fileBefore` is the current content
of the ledger file, `state` the in-memory ledger.  `send_gmail` has no
handler in `main`, so on failure the exception propagates and neither
`mark_sent`, `mark_forecast_peak` nor `save_state` runs; on success the
marked state is written to the file.  Returns (ledger file content after
the run, run outcome with the final in-memory state). -/
def mainFinale (sendResult : Except Unit Unit) (fileBefore state : AlertState)
    (send_now_flag send_forecast_flag : Bool) (now_ts : Int) (kp_fc_time : String) :
    AlertState × Except Unit AlertState :=
  match sendResult with
  | .error e => (fileBefore, .error e)
  | .ok _ =>
    let st1 := if send_now_flag then mark_sent state "NOW" now_ts else state
    let st2 :=
      if send_forecast_flag then
        mark_forecast_peak (mark_sent st1 "FORECAST" now_ts) kp_fc_time
      else st1
    (st2, .ok st2)

/-- C9: if the send fails, the run terminates with the ledger file and
state unchanged (no mark, no persist); the ledger file can change only
when the send succeeded. -/
theorem claim_C9 (fileBefore state : AlertState) (nf ff : Bool)
    (now_ts : Int) (kp_fc_time : String) :
    (∀ e : Unit, mainFinale (.error e) fileBefore state nf ff now_ts kp_fc_time =
      (fileBefore, .error e))
    ∧ (∀ sendResult : Except Unit Unit,
        (mainFinale sendResult fileBefore state nf ff now_ts kp_fc_time).1 = fileBefore
        ∨ sendResult = .ok ()) := by
  constructor
  · intro e
    rfl
  · intro sendResult
    cases sendResult with
    | error e => exact Or.inl rfl
    | ok u => exact Or.inr rfl

/-! ### Open-Meteo best observation slot around the forecast peak -/

/-- Gregorian leap year (as in Python `datetime`). -/
def isLeapYear (y : Nat) : Bool :=
  decide (y % 4 = 0 ∧ (y % 100 ≠ 0 ∨ y % 400 = 0))

/-- Days in a month of the proleptic Gregorian calendar. -/
def daysInMonth (y m : Nat) : Nat :=
  if m = 2 then (if isLeapYear y then 29 else 28)
  else if m = 4 ∨ m = 6 ∨ m = 9 ∨ m = 11 then 30
  else 31

/-- Days from 1970-01-01 to the given civil date (standard
days-from-civil algorithm; `y ≥ 1`, `1 ≤ m ≤ 12`). -/
def daysFromCivil (y m d : Nat) : Int :=
  let y2 : Nat := if m ≤ 2 then y - 1 else y
  let era : Nat := y2 / 400
  let yoe : Nat := y2 - era * 400
  let mp : Nat := (m + 9) % 12
  let doy : Nat := (153 * mp + 2) / 5 + (d - 1)
  let doe : Nat := yoe * 365 + yoe / 4 - yoe / 100 + doy
  (era * 146097 + doe : Int) - 719468

/-- POSIX timestamp of a wall-clock date-time interpreted as UTC, as in
`datetime(...).replace(tzinfo=timezone.utc).timestamp()`. -/
def epochOfDate (y mo d h mi : Nat) : Int :=
  86400 * daysFromCivil y mo d + 3600 * h + 60 * mi

/-- Splits a character list on a separator character (used to decompose
`YYYY-MM-DDTHH:MM` into its fields). -/
def splitOnChar (sep : Char) : List Char → List (List Char)
  | [] => [[]]
  | c :: rest =>
    let r := splitOnChar sep rest
    if c = sep then [] :: r
    else
      match r with
      | acc :: more => (c :: acc) :: more
      | [] => [[c]]

/-- All characters are decimal digits. -/
def allDigits (cs : List Char) : Bool := cs.all Char.isDigit

/-- Models `datetime.strptime(tstr, "%Y-%m-%dT%H:%M")` followed by
`.replace(tzinfo=timezone.utc).timestamp()` (src lines 376-380): a
4-digit year, 1-2 digit month/day/hour/minute fields in range, the date
valid for the month; any failure is a `ValueError`, i.e. `none`. -/
def parseMeteoTime (s : String) : Option Int :=
  match splitOnChar 'T' s.toList with
  | [datePart, timePart] =>
    match splitOnChar '-' datePart, splitOnChar ':' timePart with
    | [ys, ms, ds], [hs, mis] =>
      if allDigits ys ∧ ys.length = 4
          ∧ allDigits ms ∧ 1 ≤ ms.length ∧ ms.length ≤ 2
          ∧ allDigits ds ∧ 1 ≤ ds.length ∧ ds.length ≤ 2
          ∧ allDigits hs ∧ 1 ≤ hs.length ∧ hs.length ≤ 2
          ∧ allDigits mis ∧ 1 ≤ mis.length ∧ mis.length ≤ 2 then
        let y := digitsToNat ys
        let mo := digitsToNat ms
        let d := digitsToNat ds
        let h := digitsToNat hs
        let mi := digitsToNat mis
        if 1 ≤ y ∧ 1 ≤ mo ∧ mo ≤ 12 ∧ 1 ≤ d ∧ d ≤ daysInMonth y mo
            ∧ h ≤ 23 ∧ mi ≤ 59 then
          some (epochOfDate y mo d h mi)
        else none
      else none
    | _, _ => none
  | _ => none

/-- The loop of `meteo_best_slot_around_peak` (src lines 374-395) over
the zipped `(time, cloud, is_day)` samples, carrying the running best
cloud/time pair. -/
def bestSlotLoop (offset_sec start_ts end_ts max_cloud : Int) :
    List (String × Int × Int) → Option Int → Option String → Option Int × Option String
  | [], best_cloud, best_time => (best_cloud, best_time)
  | (tstr, cloud, is_day) :: rest, best_cloud, best_time =>
    match parseMeteoTime tstr with
    | none => bestSlotLoop offset_sec start_ts end_ts max_cloud rest best_cloud best_time
    | some e =>
      if e + offset_sec < start_ts ∨ e + offset_sec > end_ts then
        bestSlotLoop offset_sec start_ts end_ts max_cloud rest best_cloud best_time
      else if is_day ≠ 0 then
        bestSlotLoop offset_sec start_ts end_ts max_cloud rest best_cloud best_time
      else if cloud > max_cloud then
        bestSlotLoop offset_sec start_ts end_ts max_cloud rest best_cloud best_time
      else if (match best_cloud with
               | none => true
               | some b => decide (cloud < b)) then
        bestSlotLoop offset_sec start_ts end_ts max_cloud rest (some cloud) (some tstr)
      else
        bestSlotLoop offset_sec start_ts end_ts max_cloud rest best_cloud best_time

/-- Embeds `meteo_best_slot_around_peak` (src lines 341-400) given the
parallel `hourly` arrays, `utc_offset_seconds`, and the epoch of
`peak_dt_utc`.  The guard mirrors
`if not times or len(times) != len(clouds) or len(times) != len(is_days)`. -/
def meteo_best_slot_around_peak (times : List String) (clouds is_days : List Int)
    (offset_sec peak_utc_ts window_hours max_cloud : Int) :
    Bool × Option Int × Option String :=
  if times.isEmpty ∨ times.length ≠ clouds.length ∨ times.length ≠ is_days.length then
    (false, none, none)
  else
    match bestSlotLoop offset_sec (peak_utc_ts + offset_sec - window_hours * 3600)
        (peak_utc_ts + offset_sec + window_hours * 3600) max_cloud
        (times.zip (clouds.zip is_days)) none none with
    | (none, _) => (false, none, none)
    | (some c, bt) => (true, some c, bt)

/-- A sample qualifies for the window search: parseable timestamp, shifted
epoch within the search bounds, dark, and cloud cover at most the
ceiling. -/
def qualifies (offset_sec start_ts end_ts max_cloud : Int)
    (x : String × Int × Int) : Bool :=
  match parseMeteoTime x.1 with
  | none => false
  | some e =>
    decide (start_ts ≤ e + offset_sec ∧ e + offset_sec ≤ end_ts
      ∧ x.2.2 = 0 ∧ x.2.1 ≤ max_cloud)

/-- Qualification of the `j`-th sample of the parallel arrays, phrased
with defaulted indexing. -/
def sampleQualifies (times : List String) (clouds is_days : List Int)
    (offset_sec peak_utc_ts window_hours max_cloud : Int) (j : Nat) : Bool :=
  qualifies offset_sec (peak_utc_ts + offset_sec - window_hours * 3600)
    (peak_utc_ts + offset_sec + window_hours * 3600) max_cloud
    (times.getD j "", clouds.getD j 0, is_days.getD j 0)

theorem bestSlotLoop_cons_false (offset_sec start_ts end_ts max_cloud : Int)
    (x : String × Int × Int) (l : List (String × Int × Int))
    (bc : Option Int) (bt : Option String)
    (h : qualifies offset_sec start_ts end_ts max_cloud x = false) :
    bestSlotLoop offset_sec start_ts end_ts max_cloud (x :: l) bc bt =
      bestSlotLoop offset_sec start_ts end_ts max_cloud l bc bt := by
  rcases x with ⟨t, c, d⟩
  unfold qualifies at h
  conv_lhs => unfold bestSlotLoop
  split
  · rfl
  next e hp =>
    rw [hp] at h
    simp only [decide_eq_false_iff_not] at h
    push_neg at h
    by_cases h1 : e + offset_sec < start_ts ∨ e + offset_sec > end_ts
    · rw [if_pos h1]
    · rw [if_neg h1]
      push_neg at h1
      by_cases h2 : d ≠ 0
      · rw [if_pos h2]
      · rw [if_neg h2]
        push_neg at h2
        have h3 : c > max_cloud := by
          have := h h1.1 h1.2 h2
          omega
        rw [if_pos h3]

theorem bestSlotLoop_cons_true_none (offset_sec start_ts end_ts max_cloud : Int)
    (x : String × Int × Int) (l : List (String × Int × Int)) (bt : Option String)
    (h : qualifies offset_sec start_ts end_ts max_cloud x = true) :
    bestSlotLoop offset_sec start_ts end_ts max_cloud (x :: l) none bt =
      bestSlotLoop offset_sec start_ts end_ts max_cloud l (some x.2.1) (some x.1) := by
  rcases x with ⟨t, c, d⟩
  unfold qualifies at h
  conv_lhs => unfold bestSlotLoop
  split
  next hp => rw [hp] at h; simp at h
  next e hp =>
    rw [hp] at h
    simp only [decide_eq_true_eq] at h
    obtain ⟨ha, hb, hc, hd2⟩ := h
    rw [if_neg (by omega), if_neg (by omega), if_neg (by omega)]
    rfl

theorem bestSlotLoop_cons_true_some (offset_sec start_ts end_ts max_cloud : Int)
    (x : String × Int × Int) (l : List (String × Int × Int)) (b : Int) (bt : Option String)
    (h : qualifies offset_sec start_ts end_ts max_cloud x = true) :
    bestSlotLoop offset_sec start_ts end_ts max_cloud (x :: l) (some b) bt =
      if x.2.1 < b then
        bestSlotLoop offset_sec start_ts end_ts max_cloud l (some x.2.1) (some x.1)
      else
        bestSlotLoop offset_sec start_ts end_ts max_cloud l (some b) bt := by
  rcases x with ⟨t, c, d⟩
  unfold qualifies at h
  conv_lhs => unfold bestSlotLoop
  split
  next hp => rw [hp] at h; simp at h
  next e hp =>
    rw [hp] at h
    simp only [decide_eq_true_eq] at h
    obtain ⟨ha, hb, hc, hd2⟩ := h
    rw [if_neg (by omega), if_neg (by omega), if_neg (by omega)]
    by_cases hcb : c < b
    · rw [if_pos (by simpa using hcb), if_pos hcb]
    · rw [if_neg (by simpa using hcb), if_neg hcb]

theorem bestSlotLoop_some_spec (offset_sec start_ts end_ts max_cloud : Int)
    (l : List (String × Int × Int)) :
    ∀ b : Int, ∀ t : String,
    (bestSlotLoop offset_sec start_ts end_ts max_cloud l (some b) (some t) = (some b, some t)
      ∧ ∀ j : Fin l.length,
          qualifies offset_sec start_ts end_ts max_cloud (l.get j) = true → b ≤ (l.get j).2.1)
    ∨ (∃ i : Fin l.length,
        qualifies offset_sec start_ts end_ts max_cloud (l.get i) = true
        ∧ bestSlotLoop offset_sec start_ts end_ts max_cloud l (some b) (some t) =
            (some (l.get i).2.1, some (l.get i).1)
        ∧ (l.get i).2.1 < b
        ∧ (∀ j : Fin l.length,
            qualifies offset_sec start_ts end_ts max_cloud (l.get j) = true →
              (l.get i).2.1 ≤ (l.get j).2.1)
        ∧ (∀ j : Fin l.length, j.val < i.val →
            qualifies offset_sec start_ts end_ts max_cloud (l.get j) = true →
              (l.get i).2.1 < (l.get j).2.1)) := by
  induction l with
  | nil =>
    intro b t
    exact Or.inl ⟨rfl, fun j => j.elim0⟩
  | cons x l ih =>
    intro b t
    by_cases hq : qualifies offset_sec start_ts end_ts max_cloud x = true
    · rw [bestSlotLoop_cons_true_some offset_sec start_ts end_ts max_cloud x l b (some t) hq]
      by_cases hlt : x.2.1 < b
      · rw [if_pos hlt]
        rcases ih x.2.1 x.1 with ⟨he, hall⟩ | ⟨i, hqi, he, hlt2, hmin, hfirst⟩
        · refine Or.inr ⟨⟨0, Nat.succ_pos _⟩, hq, he, hlt, ?_, ?_⟩
          · intro j hqj
            rcases j with ⟨jv, hjv⟩
            cases jv with
            | zero => exact le_refl _
            | succ n => exact hall ⟨n, Nat.lt_of_succ_lt_succ hjv⟩ hqj
          · intro j hjlt hqj
            exact absurd hjlt (Nat.not_lt_zero j.val)
        · refine Or.inr ⟨⟨i.val + 1, Nat.succ_lt_succ i.isLt⟩, hqi, he,
            lt_trans hlt2 hlt, ?_, ?_⟩
          · intro j hqj
            rcases j with ⟨jv, hjv⟩
            cases jv with
            | zero => exact le_of_lt hlt2
            | succ n => exact hmin ⟨n, Nat.lt_of_succ_lt_succ hjv⟩ hqj
          · intro j hjlt hqj
            rcases j with ⟨jv, hjv⟩
            cases jv with
            | zero => exact hlt2
            | succ n =>
              exact hfirst ⟨n, Nat.lt_of_succ_lt_succ hjv⟩ (Nat.lt_of_succ_lt_succ hjlt) hqj
      · rw [if_neg hlt]
        push_neg at hlt
        rcases ih b t with ⟨he, hall⟩ | ⟨i, hqi, he, hlt2, hmin, hfirst⟩
        · refine Or.inl ⟨he, ?_⟩
          intro j hqj
          rcases j with ⟨jv, hjv⟩
          cases jv with
          | zero => exact hlt
          | succ n => exact hall ⟨n, Nat.lt_of_succ_lt_succ hjv⟩ hqj
        · refine Or.inr ⟨⟨i.val + 1, Nat.succ_lt_succ i.isLt⟩, hqi, he, hlt2, ?_, ?_⟩
          · intro j hqj
            rcases j with ⟨jv, hjv⟩
            cases jv with
            | zero => exact le_trans (le_of_lt hlt2) hlt
            | succ n => exact hmin ⟨n, Nat.lt_of_succ_lt_succ hjv⟩ hqj
          · intro j hjlt hqj
            rcases j with ⟨jv, hjv⟩
            cases jv with
            | zero => exact lt_of_lt_of_le hlt2 hlt
            | succ n =>
              exact hfirst ⟨n, Nat.lt_of_succ_lt_succ hjv⟩ (Nat.lt_of_succ_lt_succ hjlt) hqj
    · have hq2 : qualifies offset_sec start_ts end_ts max_cloud x = false := by
        revert hq
        cases qualifies offset_sec start_ts end_ts max_cloud x <;> simp
      rw [bestSlotLoop_cons_false offset_sec start_ts end_ts max_cloud x l (some b) (some t) hq2]
      rcases ih b t with ⟨he, hall⟩ | ⟨i, hqi, he, hlt2, hmin, hfirst⟩
      · refine Or.inl ⟨he, ?_⟩
        intro j hqj
        rcases j with ⟨jv, hjv⟩
        cases jv with
        | zero =>
          have hx : qualifies offset_sec start_ts end_ts max_cloud x = true := hqj
          rw [hq2] at hx
          exact Bool.noConfusion hx
        | succ n => exact hall ⟨n, Nat.lt_of_succ_lt_succ hjv⟩ hqj
      · refine Or.inr ⟨⟨i.val + 1, Nat.succ_lt_succ i.isLt⟩, hqi, he, hlt2, ?_, ?_⟩
        · intro j hqj
          rcases j with ⟨jv, hjv⟩
          cases jv with
          | zero =>
            have hx : qualifies offset_sec start_ts end_ts max_cloud x = true := hqj
            rw [hq2] at hx
            exact Bool.noConfusion hx
          | succ n => exact hmin ⟨n, Nat.lt_of_succ_lt_succ hjv⟩ hqj
        · intro j hjlt hqj
          rcases j with ⟨jv, hjv⟩
          cases jv with
          | zero =>
            have hx : qualifies offset_sec start_ts end_ts max_cloud x = true := hqj
            rw [hq2] at hx
            exact Bool.noConfusion hx
          | succ n =>
            exact hfirst ⟨n, Nat.lt_of_succ_lt_succ hjv⟩ (Nat.lt_of_succ_lt_succ hjlt) hqj

theorem bestSlotLoop_none_spec (offset_sec start_ts end_ts max_cloud : Int)
    (l : List (String × Int × Int)) :
    (bestSlotLoop offset_sec start_ts end_ts max_cloud l none none = (none, none)
      ∧ ∀ j : Fin l.length, qualifies offset_sec start_ts end_ts max_cloud (l.get j) = false)
    ∨ (∃ i : Fin l.length,
        qualifies offset_sec start_ts end_ts max_cloud (l.get i) = true
        ∧ bestSlotLoop offset_sec start_ts end_ts max_cloud l none none =
            (some (l.get i).2.1, some (l.get i).1)
        ∧ (∀ j : Fin l.length,
            qualifies offset_sec start_ts end_ts max_cloud (l.get j) = true →
              (l.get i).2.1 ≤ (l.get j).2.1)
        ∧ (∀ j : Fin l.length, j.val < i.val →
            qualifies offset_sec start_ts end_ts max_cloud (l.get j) = true →
              (l.get i).2.1 < (l.get j).2.1)) := by
  induction l with
  | nil => exact Or.inl ⟨rfl, fun j => j.elim0⟩
  | cons x l ih =>
    by_cases hq : qualifies offset_sec start_ts end_ts max_cloud x = true
    · rw [bestSlotLoop_cons_true_none offset_sec start_ts end_ts max_cloud x l none hq]
      rcases bestSlotLoop_some_spec offset_sec start_ts end_ts max_cloud l x.2.1 x.1 with
        ⟨he, hall⟩ | ⟨i, hqi, he, hlt2, hmin, hfirst⟩
      · refine Or.inr ⟨⟨0, Nat.succ_pos _⟩, hq, he, ?_, ?_⟩
        · intro j hqj
          rcases j with ⟨jv, hjv⟩
          cases jv with
          | zero => exact le_refl _
          | succ n => exact hall ⟨n, Nat.lt_of_succ_lt_succ hjv⟩ hqj
        · intro j hjlt hqj
          exact absurd hjlt (Nat.not_lt_zero j.val)
      · refine Or.inr ⟨⟨i.val + 1, Nat.succ_lt_succ i.isLt⟩, hqi, he, ?_, ?_⟩
        · intro j hqj
          rcases j with ⟨jv, hjv⟩
          cases jv with
          | zero => exact le_of_lt hlt2
          | succ n => exact hmin ⟨n, Nat.lt_of_succ_lt_succ hjv⟩ hqj
        · intro j hjlt hqj
          rcases j with ⟨jv, hjv⟩
          cases jv with
          | zero => exact hlt2
          | succ n =>
            exact hfirst ⟨n, Nat.lt_of_succ_lt_succ hjv⟩ (Nat.lt_of_succ_lt_succ hjlt) hqj
    · have hq2 : qualifies offset_sec start_ts end_ts max_cloud x = false := by
        revert hq
        cases qualifies offset_sec start_ts end_ts max_cloud x <;> simp
      rw [bestSlotLoop_cons_false offset_sec start_ts end_ts max_cloud x l none none hq2]
      rcases ih with ⟨he, hall⟩ | ⟨i, hqi, he, hmin, hfirst⟩
      · refine Or.inl ⟨he, ?_⟩
        intro j
        rcases j with ⟨jv, hjv⟩
        cases jv with
        | zero => exact hq2
        | succ n => exact hall ⟨n, Nat.lt_of_succ_lt_succ hjv⟩
      · refine Or.inr ⟨⟨i.val + 1, Nat.succ_lt_succ i.isLt⟩, hqi, he, ?_, ?_⟩
        · intro j hqj
          rcases j with ⟨jv, hjv⟩
          cases jv with
          | zero =>
            have hx : qualifies offset_sec start_ts end_ts max_cloud x = true := hqj
            rw [hq2] at hx
            exact Bool.noConfusion hx
          | succ n => exact hmin ⟨n, Nat.lt_of_succ_lt_succ hjv⟩ hqj
        · intro j hjlt hqj
          rcases j with ⟨jv, hjv⟩
          cases jv with
          | zero =>
            have hx : qualifies offset_sec start_ts end_ts max_cloud x = true := hqj
            rw [hq2] at hx
            exact Bool.noConfusion hx
          | succ n =>
            exact hfirst ⟨n, Nat.lt_of_succ_lt_succ hjv⟩ (Nat.lt_of_succ_lt_succ hjlt) hqj

theorem zip3_length (times : List String) (clouds is_days : List Int)
    (h1 : times.length = clouds.length) (h2 : times.length = is_days.length) :
    (times.zip (clouds.zip is_days)).length = times.length := by
  simp [List.length_zip, ← h1, ← h2]

theorem zip3_get (times : List String) (clouds is_days : List Int)
    (h1 : times.length = clouds.length) (h2 : times.length = is_days.length)
    (j : Nat) (hj : j < (times.zip (clouds.zip is_days)).length) :
    (times.zip (clouds.zip is_days)).get ⟨j, hj⟩ =
      (times.getD j "", clouds.getD j 0, is_days.getD j 0) := by
  have hjt : j < times.length := by
    rw [zip3_length times clouds is_days h1 h2] at hj
    exact hj
  have hjc : j < clouds.length := h1 ▸ hjt
  have hjd : j < is_days.length := h2 ▸ hjt
  rw [List.get_eq_getElem, List.getElem_zip, List.getElem_zip]
  rw [List.getD_eq_getElem times "" hjt, List.getD_eq_getElem clouds 0 hjc,
    List.getD_eq_getElem is_days 0 hjd]

theorem sampleQualifies_get (times : List String) (clouds is_days : List Int)
    (offset_sec peak_utc_ts window_hours max_cloud : Int)
    (h1 : times.length = clouds.length) (h2 : times.length = is_days.length)
    (j : Nat) (hj : j < (times.zip (clouds.zip is_days)).length) :
    qualifies offset_sec (peak_utc_ts + offset_sec - window_hours * 3600)
      (peak_utc_ts + offset_sec + window_hours * 3600) max_cloud
      ((times.zip (clouds.zip is_days)).get ⟨j, hj⟩) =
      sampleQualifies times clouds is_days offset_sec peak_utc_ts window_hours max_cloud j := by
  rw [zip3_get times clouds is_days h1 h2 j hj]
  rfl

theorem qualifies_true_elim (offset_sec start_ts end_ts max_cloud : Int)
    (x : String × Int × Int)
    (h : qualifies offset_sec start_ts end_ts max_cloud x = true) :
    ∃ e, parseMeteoTime x.1 = some e ∧ start_ts ≤ e + offset_sec
      ∧ e + offset_sec ≤ end_ts ∧ x.2.2 = 0 ∧ x.2.1 ≤ max_cloud := by
  unfold qualifies at h
  cases hp : parseMeteoTime x.1 with
  | none => rw [hp] at h; simp at h
  | some e =>
    rw [hp] at h
    simp only [decide_eq_true_eq] at h
    exact ⟨e, rfl, h.1, h.2.1, h.2.2.1, h.2.2.2⟩

/-- C4: the best-slot search returns `found = false` with no data when the
series is empty, the parallel arrays have mismatched lengths, or no
sample qualifies; and when some sample qualifies it returns the
qualifying sample with the lowest cloud cover, ties broken by the first
occurrence in series order. -/
theorem claim_C4 (times : List String) (clouds is_days : List Int)
    (offset_sec peak_utc_ts window_hours max_cloud : Int) :
    (times = [] ∨ times.length ≠ clouds.length ∨ times.length ≠ is_days.length →
      meteo_best_slot_around_peak times clouds is_days offset_sec peak_utc_ts window_hours
        max_cloud = (false, none, none))
    ∧ (times.length = clouds.length → times.length = is_days.length →
      (∀ j, j < times.length →
        sampleQualifies times clouds is_days offset_sec peak_utc_ts window_hours max_cloud j
          = false) →
      meteo_best_slot_around_peak times clouds is_days offset_sec peak_utc_ts window_hours
        max_cloud = (false, none, none))
    ∧ (times.length = clouds.length → times.length = is_days.length →
      ∀ i0, i0 < times.length →
      sampleQualifies times clouds is_days offset_sec peak_utc_ts window_hours max_cloud i0
        = true →
      ∃ k, k < times.length
        ∧ sampleQualifies times clouds is_days offset_sec peak_utc_ts window_hours max_cloud k
            = true
        ∧ meteo_best_slot_around_peak times clouds is_days offset_sec peak_utc_ts window_hours
            max_cloud = (true, some (clouds.getD k 0), some (times.getD k ""))
        ∧ (∀ j, j < times.length →
            sampleQualifies times clouds is_days offset_sec peak_utc_ts window_hours max_cloud j
              = true → clouds.getD k 0 ≤ clouds.getD j 0)
        ∧ (∀ j, j < k →
            sampleQualifies times clouds is_days offset_sec peak_utc_ts window_hours max_cloud j
              = true → clouds.getD k 0 < clouds.getD j 0)) := by
  refine ⟨?_, ?_, ?_⟩
  · intro h
    unfold meteo_best_slot_around_peak
    rcases h with h | h | h
    · rw [if_pos (Or.inl (by simp [h]))]
    · rw [if_pos (Or.inr (Or.inl h))]
    · rw [if_pos (Or.inr (Or.inr h))]
  · intro h1 h2 hnoq
    by_cases hemp : times = []
    · unfold meteo_best_slot_around_peak
      rw [if_pos (Or.inl (by simp [hemp]))]
    · have hg : ¬(times.isEmpty = true ∨ times.length ≠ clouds.length
          ∨ times.length ≠ is_days.length) := by
        intro hor
        rcases hor with hor | hor | hor
        · exact hemp (List.isEmpty_iff.mp hor)
        · exact hor h1
        · exact hor h2
      unfold meteo_best_slot_around_peak
      rw [if_neg hg]
      rcases bestSlotLoop_none_spec offset_sec
          (peak_utc_ts + offset_sec - window_hours * 3600)
          (peak_utc_ts + offset_sec + window_hours * 3600) max_cloud
          (times.zip (clouds.zip is_days)) with
        ⟨he, _⟩ | ⟨⟨iv, hiv⟩, hqi, _, _, _⟩
      · rw [he]
      · exfalso
        have hivt : iv < times.length := by
          rw [← zip3_length times clouds is_days h1 h2]
          exact hiv
        have hs := sampleQualifies_get times clouds is_days offset_sec peak_utc_ts
          window_hours max_cloud h1 h2 iv hiv
        rw [hnoq iv hivt] at hs
        rw [hs] at hqi
        exact Bool.noConfusion hqi
  · intro h1 h2 i0 hi0 hq0
    have hemp : ¬ times = [] := by
      intro he
      rw [he] at hi0
      simp at hi0
    have hg : ¬(times.isEmpty = true ∨ times.length ≠ clouds.length
        ∨ times.length ≠ is_days.length) := by
      intro hor
      rcases hor with hor | hor | hor
      · exact hemp (List.isEmpty_iff.mp hor)
      · exact hor h1
      · exact hor h2
    rcases bestSlotLoop_none_spec offset_sec
        (peak_utc_ts + offset_sec - window_hours * 3600)
        (peak_utc_ts + offset_sec + window_hours * 3600) max_cloud
        (times.zip (clouds.zip is_days)) with
      ⟨_, hall⟩ | ⟨⟨iv, hiv⟩, hqi, he, hmin, hfirst⟩
    · exfalso
      have hi0L : i0 < (times.zip (clouds.zip is_days)).length := by
        rw [zip3_length times clouds is_days h1 h2]
        exact hi0
      have hs := sampleQualifies_get times clouds is_days offset_sec peak_utc_ts
        window_hours max_cloud h1 h2 i0 hi0L
      rw [hq0] at hs
      rw [hall ⟨i0, hi0L⟩] at hs
      exact Bool.noConfusion hs
    · have hivt : iv < times.length := by
        rw [← zip3_length times clouds is_days h1 h2]
        exact hiv
      have hz := zip3_get times clouds is_days h1 h2 iv hiv
      refine ⟨iv, hivt, ?_, ?_, ?_, ?_⟩
      · rw [← sampleQualifies_get times clouds is_days offset_sec peak_utc_ts
          window_hours max_cloud h1 h2 iv hiv]
        exact hqi
      · unfold meteo_best_slot_around_peak
        rw [if_neg hg, he, hz]
      · intro j hj hqj
        have hjL : j < (times.zip (clouds.zip is_days)).length := by
          rw [zip3_length times clouds is_days h1 h2]
          exact hj
        have hs := sampleQualifies_get times clouds is_days offset_sec peak_utc_ts
          window_hours max_cloud h1 h2 j hjL
        rw [hqj] at hs
        have hle := hmin ⟨j, hjL⟩ hs
        rw [hz, zip3_get times clouds is_days h1 h2 j hjL] at hle
        exact hle
      · intro j hj hqj
        have hjt : j < times.length := lt_trans hj hivt
        have hjL : j < (times.zip (clouds.zip is_days)).length := by
          rw [zip3_length times clouds is_days h1 h2]
          exact hjt
        have hs := sampleQualifies_get times clouds is_days offset_sec peak_utc_ts
          window_hours max_cloud h1 h2 j hjL
        rw [hqj] at hs
        have hlt := hfirst ⟨j, hjL⟩ hj hs
        rw [hz, zip3_get times clouds is_days h1 h2 j hjL] at hlt
        exact hlt

/-- C10: whenever the best-slot search reports `found = true` with a cloud
value and a time string, they are consistent with its inputs: the time is
an element of the series, its parallel is-day entry is 0, the cloud value
is that sample's cloud cover and is at most the ceiling, and the sample's
shifted epoch lies within the peak window. -/
theorem claim_C10 (times : List String) (clouds is_days : List Int)
    (offset_sec peak_utc_ts window_hours max_cloud : Int) (c : Int) (t : String)
    (h : meteo_best_slot_around_peak times clouds is_days offset_sec peak_utc_ts window_hours
      max_cloud = (true, some c, some t)) :
    ∃ k, k < times.length ∧ times.getD k "" = t ∧ is_days.getD k 0 = 0
      ∧ clouds.getD k 0 = c ∧ c ≤ max_cloud
      ∧ ∃ e, parseMeteoTime t = some e
        ∧ peak_utc_ts + offset_sec - window_hours * 3600 ≤ e + offset_sec
        ∧ e + offset_sec ≤ peak_utc_ts + offset_sec + window_hours * 3600 := by
  unfold meteo_best_slot_around_peak at h
  by_cases hg : times.isEmpty = true ∨ times.length ≠ clouds.length
      ∨ times.length ≠ is_days.length
  · rw [if_pos hg] at h
    simp at h
  · rw [if_neg hg] at h
    push_neg at hg
    obtain ⟨hne, h1, h2⟩ := hg
    rcases bestSlotLoop_none_spec offset_sec
        (peak_utc_ts + offset_sec - window_hours * 3600)
        (peak_utc_ts + offset_sec + window_hours * 3600) max_cloud
        (times.zip (clouds.zip is_days)) with
      ⟨he, _⟩ | ⟨⟨iv, hiv⟩, hqi, he, _, _⟩
    · rw [he] at h
      simp at h
    · rw [he] at h
      simp only [Prod.mk.injEq, Option.some.injEq, true_and] at h
      obtain ⟨hc, ht⟩ := h
      have hivt : iv < times.length := by
        rw [← zip3_length times clouds is_days h1 h2]
        exact hiv
      have hz := zip3_get times clouds is_days h1 h2 iv hiv
      obtain ⟨e, hp, hst, hen, hd0, hcm⟩ :=
        qualifies_true_elim _ _ _ _ _ hqi
      rw [hz] at hp hd0 hcm
      rw [hz] at hc ht
      refine ⟨iv, hivt, ht, hd0, hc, ?_, e, ?_, hst, hen⟩
      · rw [← hc]
        exact hcm
      · rw [← ht]
        exact hp

/-- Concrete hourly time array used by the window-search witnesses. -/
def wTimes : List String :=
  ["2025-03-01T20:00", "2025-03-01T21:00", "2025-03-01T22:00", "2025-03-01T23:00"]

/-- Concrete cloud-cover array used by the window-search witnesses. -/
def wClouds : List Int := [80, 40, 20, 90]

/-- Concrete is-day array used by the window-search witnesses. -/
def wDays : List Int := [0, 0, 0, 0]

/-- Concrete forecast-peak epoch (2025-03-01 21:30 UTC) used by the
window-search witnesses. -/
def wPeak : Int := epochOfDate 2025 3 1 21 30

/-- C4 witness: four dark samples with clouds 80/40/20/90 inside a ±2 h
window around the peak; the search reports the lowest cloud cover, and
indeed returns the 20-cloud sample. -/
theorem claim_C4_witness :
    (∃ k, k < wTimes.length
      ∧ sampleQualifies wTimes wClouds wDays 0 wPeak 2 70 k = true
      ∧ meteo_best_slot_around_peak wTimes wClouds wDays 0 wPeak 2 70
          = (true, some (wClouds.getD k 0), some (wTimes.getD k ""))
      ∧ (∀ j, j < wTimes.length → sampleQualifies wTimes wClouds wDays 0 wPeak 2 70 j = true →
          wClouds.getD k 0 ≤ wClouds.getD j 0)
      ∧ (∀ j, j < k → sampleQualifies wTimes wClouds wDays 0 wPeak 2 70 j = true →
          wClouds.getD k 0 < wClouds.getD j 0))
    ∧ meteo_best_slot_around_peak wTimes wClouds wDays 0 wPeak 2 70
        = (true, some 20, some "2025-03-01T22:00") :=
  ⟨(claim_C4 wTimes wClouds wDays 0 wPeak 2 70).2.2 rfl rfl 1 (by decide) (by decide),
   by decide⟩

/-- C10 witness: a single dark in-window sample with cloud 30 and UTC
offset 3600 s; `found = true` is reported and the returned data indeed
points back to that sample. -/
theorem claim_C10_witness :
    ∃ k, k < (["2025-03-01T22:00"] : List String).length
      ∧ (["2025-03-01T22:00"] : List String).getD k "" = "2025-03-01T22:00"
      ∧ ([0] : List Int).getD k 0 = 0
      ∧ ([30] : List Int).getD k 0 = 30
      ∧ (30 : Int) ≤ 70
      ∧ ∃ e, parseMeteoTime "2025-03-01T22:00" = some e
        ∧ wPeak + 3600 - 2 * 3600 ≤ e + 3600
        ∧ e + 3600 ≤ wPeak + 3600 + 2 * 3600 :=
  claim_C10 ["2025-03-01T22:00"] [30] [0] 3600 wPeak 2 70 30 "2025-03-01T22:00" (by decide)

end AuroraAlert

